import Mathlib

/-!
Verification of the simple-ts-di dependency-injection core.

The development shallowly embeds the engine's state machine:
tokens, providers, the per-injector registry (a `Map` keyed by the
token's `name` string, exactly as in `injector.ts`), the global
ambient injection context (`context.ts`), provider resolution
(`Injector.get` / `initializeProvider` / `resolveClassProvider` /
`resolveFactoryProvider`), the `Component` decorator wrapper
(`decorators/component.ts`) and `dynamicComponent`
(`dynamic-component.ts`).

Construction bodies (class constructors and factory functions) are
deeply embedded as a tiny expression language `Exp` so that the
mutual recursion between resolution and user construction code is a
single fuel-indexed interpreter `runCall`.  Exceptions carry the
world at throw time, since JS exceptions do not roll back state.
-/

namespace DI

/-- Runtime values: literals, fresh object identities produced by
class construction, injector references (the value self-registered
under the `Injector` key), arrays, and `undefined` (the absent
sentinel returned by an `optional` miss). -/
inductive Value where
  | undef : Value
  | unit : Value
  | str (s : String) : Value
  | num (n : Nat) : Value
  | obj (id : Nat) : Value
  | inj (i : Nat) : Value
  | list (vs : List Value) : Value

/-- A token: an identity (`id`) carrying a display label (`name`).
`Injector.get` and `provide` key the registry by `name` alone, the
`id` is the object identity of the token. -/
structure Token where
  id : Nat
  name : String
deriving DecidableEq, Repr

/-- `InjectionOptions` from `injector.ts` (all flags default to
absent/false). -/
structure InjectionOptions where
  optional : Bool := false
  self : Bool := false
  skipSelf : Bool := false
  host : Bool := false
deriving DecidableEq, Repr

/-- The construction-body language: what a class constructor or a
factory function can do.  `injectE` is a call to the ambient
`inject(token, options)`, `throwE` throws a user error. -/
inductive Exp where
  | ret (v : Value) : Exp
  | injectE (t : Token) (o : InjectionOptions) : Exp
  | seq (a b : Exp) : Exp
  | throwE : Exp

/-- The provider union from `types/provider.ts`.  `ctorP` is the
bare-constructor shorthand; `provide` normalizes it to a
`classP` before storing (`createClassProviderFromConstructor`). -/
inductive Provider where
  | ctorP (c : Nat) : Provider
  | valueP (provide : Token) (useValue : Value) : Provider
  | classP (provide : Token) (useClass : Nat) : Provider
  | factoryP (provide : Token) (useFactory : Exp) (deps : List Provider) : Provider
  | existingP (provide : Token) (useExisting : Token) : Provider

/-- A constructible runtime class: either a plain class, or a class
wrapped by the `Component(providers)` decorator. -/
inductive Constructible where
  | plain (c : Nat) : Constructible
  | comp (providers : List Provider) (c : Nat) : Constructible

/-- Per-token resolution state (`ProviderData` in `injector.ts`):
`uninit` holds the stored recipe (`{provider}`), `init` holds the
resolved value (`{value}`). -/
inductive ProviderData where
  | uninit (p : Provider) : ProviderData
  | init (v : Value) : ProviderData

/-- One injector: its registry (the `Map<string, ProviderData>`,
as an association list with in-place replacement) and the optional
parent reference. -/
structure Inj where
  registry : List (String × ProviderData)
  parent : Option Nat

/-- The whole mutable state: the injector heap (index = identity;
index 0 is `ROOT_INJECTOR`), the ambient `currentComponentInjector`
pointer (`none` = null), and a counter for fresh object ids. -/
structure World where
  injectors : List Inj
  current : Option Nat
  nextObj : Nat

/-- Errors: `notRegistered` is `Dependency ${token.name} is not
registered`, `outsideContext` is `${func.name} must be called in
injection context`, `userError` is a throw inside a construction
body, `fuel` marks interpreter fuel exhaustion (a model artifact,
never produced by the embedded program itself). -/
inductive Err where
  | notRegistered (name : String) : Err
  | outsideContext (fn : String) : Err
  | userError : Err
  | fuel : Err
deriving DecidableEq, Repr

/-- A class definition: its `.name` and its original constructor
body, as a function of the received constructor arguments. -/
structure ClassDef where
  name : String
  body : List Value → Exp

/-- The static class table (code, not state). -/
def Env : Type := List ClassDef

def defaultClass : ClassDef := ⟨"", fun _ => .ret .unit⟩

def getClass (env : Env) (c : Nat) : ClassDef :=
  env.getD c defaultClass

def className (env : Env) (c : Nat) : String :=
  (getClass env c).name

/-- `Map.get` on a registry: first matching key. -/
def regLookup : List (String × ProviderData) → String → Option ProviderData
  | [], _ => none
  | (k', d) :: rest, k => if k' = k then some d else regLookup rest k

/-- `Map.set` on a registry: replace in place, else append. -/
def regSet : List (String × ProviderData) → String → ProviderData →
    List (String × ProviderData)
  | [], k, d => [(k, d)]
  | (k', d') :: rest, k, d =>
    if k' = k then (k, d) :: rest else (k', d') :: regSet rest k d

def emptyInj : Inj := ⟨[], none⟩

def registryAt (w : World) (i : Nat) : List (String × ProviderData) :=
  (w.injectors.getD i emptyInj).registry

def parentAt (w : World) (i : Nat) : Option Nat :=
  (w.injectors.getD i emptyInj).parent

/-- Overwrite injector `i`'s entry for key `k` (used by `get` to
cache a just-resolved value). -/
def setRegEntry (w : World) (i : Nat) (k : String) (d : ProviderData) : World :=
  let inj := w.injectors.getD i emptyInj
  let upd : Inj := { inj with registry := regSet inj.registry k d }
  { w with injectors := w.injectors.set i upd }

/-- `createClassProviderFromConstructor` (normalization performed by
`provide` on a bare constructor): `{provide: target, useClass: target}`. -/
def createClassProviderFromConstructor (env : Env) (c : Nat) : Provider :=
  .classP ⟨c, className env c⟩ c

def normalizeProvider (env : Env) : Provider → Provider
  | .ctorP c => createClassProviderFromConstructor env c
  | p => p

/-- The token a (normalized) provider is registered under. -/
def providerToken (env : Env) : Provider → Token
  | .ctorP c => ⟨c, className env c⟩
  | .valueP t _ => t
  | .classP t _ => t
  | .factoryP t _ _ => t
  | .existingP t _ => t

/-- `provide` on a bare registry: store the (normalized) recipe as
uninitialized under the token's `name`. -/
def provideReg (env : Env) (r : List (String × ProviderData)) (p : Provider) :
    List (String × ProviderData) :=
  regSet r (providerToken env p).name (.uninit (normalizeProvider env p))

/-- `injector.provide(p)` on the world. -/
def provide (env : Env) (w : World) (i : Nat) (p : Provider) : World :=
  let inj := w.injectors.getD i emptyInj
  let upd : Inj := { inj with registry := provideReg env inj.registry p }
  { w with injectors := w.injectors.set i upd }

/-- The `ROOT_INJECTOR` lives at heap index 0. -/
def rootId : Nat := 0

/-- The key under which every injector self-registers: the
`Injector` class used as a token (`{provide: Injector, useValue:
this}`), keyed by its `.name`. -/
def injectorToken : Token := ⟨0, "Injector"⟩

/-- `COMPONENT = new InjectionToken('Component')` from the
`Component` decorator module. -/
def componentToken : Token := ⟨1, "Component"⟩

/-- `new Injector(parent, providers)`: seed the registry from the
provider list, then self-register `{provide: Injector, useValue:
this}` (so a seeded `Injector`-named entry is overwritten).  Returns
the new injector's identity. -/
def newInjector (env : Env) (w : World) (parent : Option Nat)
    (providers : List Provider) : Nat × World :=
  let id := w.injectors.length
  let seeded := providers.foldl (fun r p => provideReg env r p) []
  let reg := provideReg env seeded (.valueP injectorToken (.inj id))
  (id, { w with injectors := w.injectors ++ [⟨reg, parent⟩] })

/-- `setCurrentInjector` from `context.ts`: writing the root
injector clears the stored pointer instead of storing it. -/
def setCurrentInjector (w : World) (i : Nat) : World :=
  if i = rootId then { w with current := none } else { w with current := some i }

/-- `getCurrentInjector` from `context.ts`: the stored pointer if
set, else `ROOT_INJECTOR`. -/
def getCurrentInjector (w : World) : Nat :=
  w.current.getD rootId

/-- `assertRunInInjectionContext` from `context.ts`: fails iff the
stored pointer was never set (or was cleared). -/
def assertRunInInjectionContext (w : World) (fn : String) :
    Except (Err × World) Unit :=
  if w.current = none then .error (.outsideContext fn, w) else .ok ()

/-- The mutually recursive engine operations, folded into one
fuel-indexed interpreter request type. -/
inductive Call where
  | cGet (i : Nat) (t : Token) (o : InjectionOptions) : Call
  | cInitProvider (i : Nat) (p : Provider) : Call
  | cEval (e : Exp) : Call
  | cNew (k : Constructible) (args : List Value) : Call
  | cFactory (body : Exp) (deps : List Provider) : Call

/-- The engine interpreter.  Each case transcribes its source
function:

* `cGet` — `Injector.get(token, options)`;
* `cInitProvider` — `Injector.initializeProvider` (a stored bare
  constructor matches none of the four shape tests and falls through
  to `undefined`; unreachable because `provide` normalizes);
* `cEval` — running a construction body (`inject` is
  `getCurrentInjector().get(...)`);
* `cNew .plain` — `new C()` / `new C(args)`: run the original
  constructor body, produce a fresh object identity;
* `cNew .comp` — the `Component(providers)` wrapper constructor:
  capture parent context, build the child injector, set it current,
  run the original constructor, then self-register the instance
  under the target class name and under `COMPONENT`, then restore
  the parent context.  No restore happens when the body throws
  (the source has no try/finally);
* `cFactory` — `resolveFactoryProvider`: child injector seeded with
  `deps`, parented to the ambient context; again no restore on
  throw. -/
def runCall (env : Env) : Nat → World → Call → Except (Err × World) (Value × World)
  | 0, w, _ => .error (.fuel, w)
  | n + 1, w, c =>
    match c with
    | .cGet i t o =>
      let found := if o.skipSelf then none else regLookup (registryAt w i) t.name
      match found with
      | none =>
        match parentAt w i, o.self with
        | some p, false =>
          runCall env n w (.cGet p t ⟨o.optional, o.host, false, false⟩)
        | _, _ =>
          if o.optional then .ok (.undef, w)
          else .error (.notRegistered t.name, w)
      | some (.init v) => .ok (v, w)
      | some (.uninit p) =>
        match runCall env n w (.cInitProvider i p) with
        | .error e => .error e
        | .ok (v, w₂) => .ok (v, setRegEntry w₂ i t.name (.init v))
    | .cInitProvider i p =>
      match p with
      | .valueP _ v => .ok (v, w)
      | .classP _ c => runCall env n w (.cNew (.plain c) [])
      | .factoryP _ body deps => runCall env n w (.cFactory body deps)
      | .existingP _ target => runCall env n w (.cGet i target {})
      | .ctorP _ => .ok (.undef, w)
    | .cEval e =>
      match e with
      | .ret v => .ok (v, w)
      | .throwE => .error (.userError, w)
      | .injectE t o => runCall env n w (.cGet (getCurrentInjector w) t o)
      | .seq a b =>
        match runCall env n w (.cEval a) with
        | .error e => .error e
        | .ok (_, w₁) => runCall env n w₁ (.cEval b)
    | .cNew k args =>
      match k with
      | .plain c =>
        let objId := w.nextObj
        let w₁ := { w with nextObj := w.nextObj + 1 }
        match runCall env n w₁ (.cEval ((getClass env c).body args)) with
        | .error e => .error e
        | .ok (_, w₂) => .ok (.obj objId, w₂)
      | .comp providers c =>
        let parent := getCurrentInjector w
        let made := newInjector env w (some parent) providers
        let w₂ := setCurrentInjector made.2 made.1
        match runCall env n w₂ (.cNew (.plain c) args) with
        | .error e => .error e
        | .ok (inst, w₃) =>
          let w₄ := provide env w₃ made.1 (.valueP ⟨0, className env c⟩ inst)
          let w₅ := provide env w₄ made.1 (.valueP componentToken inst)
          .ok (inst, setCurrentInjector w₅ parent)
    | .cFactory body deps =>
      let parentInjector := getCurrentInjector w
      let made := newInjector env w (some parentInjector) deps
      let w₂ := setCurrentInjector made.2 made.1
      match runCall env n w₂ (.cEval body) with
      | .error e => .error e
      | .ok (v, w₃) => .ok (v, setCurrentInjector w₃ parentInjector)

/-- `injector.get(token, options)` as a top-level entry point. -/
def injectorGet (env : Env) (fuel : Nat) (w : World) (i : Nat) (t : Token)
    (o : InjectionOptions) : Except (Err × World) (Value × World) :=
  runCall env fuel w (.cGet i t o)

/-- `inject(token, options)` from `inject.ts`:
`getCurrentInjector().get(target, options)`. -/
def inject (env : Env) (fuel : Nat) (w : World) (t : Token)
    (o : InjectionOptions) : Except (Err × World) (Value × World) :=
  injectorGet env fuel w (getCurrentInjector w) t o

/-- `dynamicComponent(component, params, injector?)` from
`dynamic-component.ts`.  When no injector is supplied, assert the
context and ambient-inject the `Injector` token; then set the chosen
injector current (never restored) and run `new component(params)` —
note the argument list is passed as ONE argument, the array itself,
exactly as in the source.  A non-injector value stored under the
`Injector` key is outside the modeled behavior. -/
def dynamicComponent (env : Env) (fuel : Nat) (w : World) (k : Constructible)
    (params : List Value) (injOpt : Option Nat) :
    Except (Err × World) (Value × World) :=
  match injOpt with
  | some injector =>
    runCall env fuel (setCurrentInjector w injector) (.cNew k [.list params])
  | none =>
    match assertRunInInjectionContext w "dynamicComponent" with
    | .error e => .error e
    | .ok _ =>
      match inject env fuel w injectorToken {} with
      | .error e => .error e
      | .ok (.inj i, w₁) =>
        runCall env fuel (setCurrentInjector w₁ i) (.cNew k [.list params])
      | .ok (_, w₁) => .error (.fuel, w₁)

/-- World observed after a run, for ok and error alike (JS errors do
not roll back state). -/
def worldOf : Except (Err × World) (Value × World) → World
  | .ok (_, w) => w
  | .error (_, w) => w

/-- Resolved value of a successful run. -/
def valueOf : Except (Err × World) (Value × World) → Option Value
  | .ok (v, _) => some v
  | .error _ => none

/-- The ambient pointer observed after a run. -/
def currentOf (r : Except (Err × World) (Value × World)) : Option Nat :=
  (worldOf r).current


/-! ### Basic registry and state lemmas -/

theorem regLookup_regSet_self (r : List (String × ProviderData)) (k : String)
    (d : ProviderData) : regLookup (regSet r k d) k = some d := by
  induction r with
  | nil => simp [regSet, regLookup]
  | cons hd tl ih =>
    obtain ⟨k', d'⟩ := hd
    by_cases h : k' = k
    · simp [regSet, regLookup, h]
    · simp [regSet, regLookup, h, ih]

theorem regLookup_regSet_ne (r : List (String × ProviderData)) (k k' : String)
    (d : ProviderData) (h : k' ≠ k) :
    regLookup (regSet r k d) k' = regLookup r k' := by
  induction r with
  | nil => simp [regSet, regLookup, Ne.symm h]
  | cons hd tl ih =>
    obtain ⟨k₀, d₀⟩ := hd
    by_cases h₀ : k₀ = k
    · subst h₀
      simp [regSet, regLookup, Ne.symm h]
    · simp [regSet, regLookup, h₀, ih]

theorem getD_set_self {α : Type} (l : List α) (i : Nat) (a d : α)
    (h : i < l.length) : (l.set i a).getD i d = a := by
  induction l generalizing i with
  | nil => simp at h
  | cons hd tl ih =>
    cases i with
    | zero => simp [List.set, List.getD]
    | succ j =>
      simp only [List.set, List.getD_cons_succ]
      exact ih j (by simpa using h)

theorem getD_set_ne {α : Type} (l : List α) (i j : Nat) (a d : α)
    (h : i ≠ j) : (l.set i a).getD j d = l.getD j d := by
  induction l generalizing i j with
  | nil => simp [List.set]
  | cons hd tl ih =>
    cases i with
    | zero =>
      cases j with
      | zero => exact absurd rfl h
      | succ j' => simp [List.set]
    | succ i' =>
      cases j with
      | zero => simp [List.set]
      | succ j' =>
        simp only [List.set, List.getD_cons_succ]
        exact ih i' j' (fun hc => h (by simp [hc]))

theorem getD_append_len {α : Type} (l : List α) (x d : α) :
    (l ++ [x]).getD l.length d = x := by
  induction l with
  | nil => rfl
  | cons hd tl ih => simp [ih]

theorem getD_append_lt {α : Type} (l : List α) (x d : α) (i : Nat)
    (h : i < l.length) : (l ++ [x]).getD i d = l.getD i d := by
  induction l generalizing i with
  | nil => simp at h
  | cons hd tl ih =>
    cases i with
    | zero => rfl
    | succ j =>
      simp only [List.cons_append, List.getD_cons_succ]
      exact ih j (by simpa using h)

theorem getD_of_length_le {α : Type} (l : List α) (i : Nat) (d : α)
    (h : l.length ≤ i) : l.getD i d = d := by
  induction l generalizing i with
  | nil => cases i <;> rfl
  | cons hd tl ih =>
    cases i with
    | zero => simp at h
    | succ j =>
      simp only [List.getD_cons_succ]
      exact ih j (by simpa using h)

theorem lt_of_regLookup_some (w : World) (i : Nat) (k : String)
    (d : ProviderData) (h : regLookup (registryAt w i) k = some d) :
    i < w.injectors.length := by
  by_contra hge
  have hd : w.injectors.getD i emptyInj = emptyInj :=
    getD_of_length_le _ _ _ (Nat.le_of_not_lt hge)
  unfold registryAt at h
  rw [hd] at h
  simp [emptyInj, regLookup] at h

@[simp] theorem injectors_setCurrentInjector (w : World) (i : Nat) :
    (setCurrentInjector w i).injectors = w.injectors := by
  unfold setCurrentInjector
  split <;> rfl

@[simp] theorem nextObj_setCurrentInjector (w : World) (i : Nat) :
    (setCurrentInjector w i).nextObj = w.nextObj := by
  unfold setCurrentInjector
  split <;> rfl

@[simp] theorem length_setRegEntry (w : World) (i : Nat) (k : String)
    (d : ProviderData) :
    (setRegEntry w i k d).injectors.length = w.injectors.length := by
  simp [setRegEntry]

@[simp] theorem current_setRegEntry (w : World) (i : Nat) (k : String)
    (d : ProviderData) : (setRegEntry w i k d).current = w.current := rfl

@[simp] theorem length_provide (env : Env) (w : World) (i : Nat) (p : Provider) :
    (provide env w i p).injectors.length = w.injectors.length := by
  simp [provide]

@[simp] theorem current_provide (env : Env) (w : World) (i : Nat) (p : Provider) :
    (provide env w i p).current = w.current := rfl

theorem registryAt_setRegEntry_self (w : World) (i : Nat) (k : String)
    (d : ProviderData) (h : i < w.injectors.length) :
    registryAt (setRegEntry w i k d) i = regSet (registryAt w i) k d := by
  simp [setRegEntry, registryAt, List.getD, List.getElem?_set_self h]

theorem registryAt_setRegEntry_ne (w : World) (i j : Nat) (k : String)
    (d : ProviderData) (h : i ≠ j) :
    registryAt (setRegEntry w i k d) j = registryAt w j := by
  simp [setRegEntry, registryAt, List.getD, List.getElem?_set_ne h]

theorem registryAt_provide_self (env : Env) (w : World) (i : Nat) (p : Provider)
    (h : i < w.injectors.length) :
    registryAt (provide env w i p) i = provideReg env (registryAt w i) p := by
  simp [provide, registryAt, List.getD, List.getElem?_set_self h]

theorem registryAt_provide_ne (env : Env) (w : World) (i j : Nat) (p : Provider)
    (h : i ≠ j) : registryAt (provide env w i p) j = registryAt w j := by
  simp [provide, registryAt, List.getD, List.getElem?_set_ne h]

@[simp] theorem length_newInjector (env : Env) (w : World) (parent : Option Nat)
    (ps : List Provider) :
    (newInjector env w parent ps).2.injectors.length = w.injectors.length + 1 := by
  simp [newInjector]

@[simp] theorem fst_newInjector (env : Env) (w : World) (parent : Option Nat)
    (ps : List Provider) :
    (newInjector env w parent ps).1 = w.injectors.length := rfl

@[simp] theorem current_newInjector (env : Env) (w : World) (parent : Option Nat)
    (ps : List Provider) :
    (newInjector env w parent ps).2.current = w.current := rfl

/-- The injector heap only ever grows: no operation removes an
injector. -/
theorem runCall_length_mono (env : Env) :
    ∀ (n : Nat) (w : World) (c : Call),
      w.injectors.length ≤ (worldOf (runCall env n w c)).injectors.length := by
  intro n
  induction n with
  | zero => intro w c; simp [runCall, worldOf]
  | succ n ih =>
    intro w c
    cases c with
    | cGet i t o =>
      simp only [runCall]
      cases hf : (if o.skipSelf then none
          else regLookup (registryAt w i) t.name) with
      | none =>
        cases hp : parentAt w i with
        | none =>
          cases hs : o.self <;> cases ho : o.optional <;>
            simp [worldOf]
        | some p =>
          cases hs : o.self
          · exact ih w (.cGet p t ⟨o.optional, o.host, false, false⟩)
          · cases ho : o.optional <;> simp [worldOf]
      | some d =>
        cases d with
        | init v => simp [worldOf]
        | uninit p =>
          cases hr : runCall env n w (.cInitProvider i p) with
          | error e =>
            have := ih w (.cInitProvider i p)
            rw [hr] at this
            simp [hr, worldOf] at this ⊢
            omega
          | ok res =>
            obtain ⟨v, w₂⟩ := res
            have := ih w (.cInitProvider i p)
            rw [hr] at this
            simp [hr, worldOf] at this ⊢
            omega
    | cInitProvider i p =>
      cases p with
      | valueP t v => simp [runCall, worldOf]
      | classP t c => exact ih w (.cNew (.plain c) [])
      | factoryP t body deps => exact ih w (.cFactory body deps)
      | existingP t target => exact ih w (.cGet i target {})
      | ctorP c => simp [runCall, worldOf]
    | cEval e =>
      cases e with
      | ret v => simp [runCall, worldOf]
      | throwE => simp [runCall, worldOf]
      | injectE t o => exact ih w (.cGet (getCurrentInjector w) t o)
      | seq a b =>
        simp only [runCall]
        cases hr : runCall env n w (.cEval a) with
        | error e =>
          have := ih w (.cEval a)
          rw [hr] at this
          simp [hr, worldOf] at this ⊢
          omega
        | ok res =>
          obtain ⟨v, w₁⟩ := res
          have h1 := ih w (.cEval a)
          rw [hr] at h1
          have h2 := ih w₁ (.cEval b)
          cases hr2 : runCall env n w₁ (.cEval b) with
          | error e2 =>
            rw [hr2] at h2
            simp [hr, hr2, worldOf] at h1 h2 ⊢
            omega
          | ok res2 =>
            obtain ⟨v2, w₂⟩ := res2
            rw [hr2] at h2
            simp [hr, hr2, worldOf] at h1 h2 ⊢
            omega
    | cNew k args =>
      cases k with
      | plain c =>
        simp only [runCall]
        cases hr : runCall env n { w with nextObj := w.nextObj + 1 }
            (.cEval ((getClass env c).body args)) with
        | error e =>
          have := ih { w with nextObj := w.nextObj + 1 }
            (.cEval ((getClass env c).body args))
          rw [hr] at this
          simp [hr, worldOf] at this ⊢
          omega
        | ok res =>
          obtain ⟨v, w₂⟩ := res
          have := ih { w with nextObj := w.nextObj + 1 }
            (.cEval ((getClass env c).body args))
          rw [hr] at this
          simp [hr, worldOf] at this ⊢
          omega
      | comp providers c =>
        simp only [runCall]
        cases hr : runCall env n
            (setCurrentInjector (newInjector env w (some (getCurrentInjector w)) providers).2
              (newInjector env w (some (getCurrentInjector w)) providers).1)
            (.cNew (.plain c) args) with
        | error e =>
          have := ih
            (setCurrentInjector (newInjector env w (some (getCurrentInjector w)) providers).2
              (newInjector env w (some (getCurrentInjector w)) providers).1)
            (.cNew (.plain c) args)
          rw [hr] at this
          simp [hr, worldOf] at this ⊢
          omega
        | ok res =>
          obtain ⟨v, w₃⟩ := res
          have := ih
            (setCurrentInjector (newInjector env w (some (getCurrentInjector w)) providers).2
              (newInjector env w (some (getCurrentInjector w)) providers).1)
            (.cNew (.plain c) args)
          rw [hr] at this
          simp [hr, worldOf, provide] at this ⊢
          omega
    | cFactory body deps =>
      simp only [runCall]
      cases hr : runCall env n
          (setCurrentInjector (newInjector env w (some (getCurrentInjector w)) deps).2
            (newInjector env w (some (getCurrentInjector w)) deps).1)
          (.cEval body) with
      | error e =>
        have := ih
          (setCurrentInjector (newInjector env w (some (getCurrentInjector w)) deps).2
            (newInjector env w (some (getCurrentInjector w)) deps).1)
          (.cEval body)
        rw [hr] at this
        simp [hr, worldOf] at this ⊢
        omega
      | ok res =>
        obtain ⟨v, w₃⟩ := res
        have := ih
          (setCurrentInjector (newInjector env w (some (getCurrentInjector w)) deps).2
            (newInjector env w (some (getCurrentInjector w)) deps).1)
          (.cEval body)
        rw [hr] at this
        simp [hr, worldOf] at this ⊢
        omega

/-! ### Delegation-walk predicates and lemmas -/

/-- The default-options `get` walk from injector `d` reaches injector
`a`: every injector strictly before `a` on the parent chain has no
registry entry for key `k`. -/
def reachesOwner (w : World) (k : String) : Nat → Nat → Nat → Bool
  | 0, _, _ => false
  | n + 1, d, a =>
    if d = a then true
    else
      match regLookup (registryAt w d) k with
      | some _ => false
      | none =>
        match parentAt w d with
        | some p => reachesOwner w k n p a
        | none => false

/-- The `get` walk from injector `i` finds no entry for key `k`
anywhere along the reachable parent chain. -/
def allMiss (w : World) (k : String) : Nat → Nat → Bool
  | 0, _ => false
  | n + 1, i =>
    match regLookup (registryAt w i) k with
    | some _ => false
    | none =>
      match parentAt w i with
      | some p => allMiss w k n p
      | none => true

/-- A default-options `get` whose walk reaches an injector holding an
already-resolved entry returns the cached value and leaves the world
untouched. -/
theorem runCall_cacheHit (env : Env) (w : World) (t : Token) (a : Nat)
    (v : Value) :
    ∀ (n : Nat) (d : Nat), reachesOwner w t.name n d a = true →
      regLookup (registryAt w a) t.name = some (.init v) →
      runCall env n w (.cGet d t {}) = .ok (v, w) := by
  intro n
  induction n with
  | zero => intro d hreach; simp [reachesOwner] at hreach
  | succ n ih =>
    intro d hreach hcache
    by_cases hda : d = a
    · subst hda
      simp only [runCall]
      simp [hcache]
    · rw [reachesOwner, if_neg hda] at hreach
      cases hl : regLookup (registryAt w d) t.name with
      | some _ => rw [hl] at hreach; simp at hreach
      | none =>
        rw [hl] at hreach
        cases hp : parentAt w d with
        | none => rw [hp] at hreach; simp at hreach
        | some p =>
          rw [hp] at hreach
          simp only [runCall]
          simp only [Bool.false_eq_true, if_false, hl, hp]
          exact ih p hreach hcache

/-- A successful default-options `get` whose walk reaches the owner of
an unresolved recipe resolves that recipe and caches the result at
the owner — and nowhere else: the final world is exactly the
initialization's world with the single cache write at the owner. -/
theorem runCall_resolveAtOwner (env : Env) (w : World) (t : Token) (a : Nat)
    (p : Provider) :
    ∀ (n : Nat) (d : Nat) (v : Value) (w₁ : World),
      reachesOwner w t.name n d a = true →
      regLookup (registryAt w a) t.name = some (.uninit p) →
      runCall env n w (.cGet d t {}) = .ok (v, w₁) →
      ∃ (m : Nat) (w₂ : World),
        runCall env m w (.cInitProvider a p) = .ok (v, w₂) ∧
          w₁ = setRegEntry w₂ a t.name (.init v) := by
  intro n
  induction n with
  | zero => intro d v w₁ hreach; simp [reachesOwner] at hreach
  | succ n ih =>
    intro d v w₁ hreach hown hrun
    by_cases hda : d = a
    · subst hda
      rw [runCall] at hrun
      simp only [Bool.false_eq_true, if_false, hown] at hrun
      cases hr : runCall env n w (.cInitProvider d p) with
      | error e => rw [hr] at hrun; simp at hrun
      | ok res =>
        obtain ⟨v', w₂⟩ := res
        rw [hr] at hrun
        simp only [Except.ok.injEq, Prod.mk.injEq] at hrun
        obtain ⟨hv, hw⟩ := hrun
        subst hv
        exact ⟨n, w₂, hr, hw.symm⟩
    · rw [reachesOwner, if_neg hda] at hreach
      cases hl : regLookup (registryAt w d) t.name with
      | some _ => rw [hl] at hreach; simp at hreach
      | none =>
        rw [hl] at hreach
        cases hp : parentAt w d with
        | none => rw [hp] at hreach; simp at hreach
        | some par =>
          rw [hp] at hreach
          rw [runCall] at hrun
          simp only [Bool.false_eq_true, if_false, hl, hp] at hrun
          exact ih par v w₁ hreach hown hrun

/-- `{optional: true}` resolution over a chain with no entry for the
token returns the absent sentinel (`undefined`) and never throws. -/
theorem runCall_allMiss_optional (env : Env) (w : World) (t : Token) :
    ∀ (n : Nat) (i : Nat), allMiss w t.name n i = true →
      runCall env n w (.cGet i t { optional := true }) = .ok (.undef, w) := by
  intro n
  induction n with
  | zero => intro i hmiss; simp [allMiss] at hmiss
  | succ n ih =>
    intro i hmiss
    rw [allMiss] at hmiss
    cases hl : regLookup (registryAt w i) t.name with
    | some _ => rw [hl] at hmiss; simp at hmiss
    | none =>
      rw [hl] at hmiss
      cases hp : parentAt w i with
      | none =>
        rw [runCall]
        simp [hl, hp]
      | some p =>
        rw [hp] at hmiss
        rw [runCall]
        simp only [Bool.false_eq_true, if_false, hl, hp]
        exact ih p hmiss

/-- Non-optional resolution over a chain with no entry for the token
throws `TokenNotRegistered` and leaves the world untouched. -/
theorem runCall_allMiss_throws (env : Env) (w : World) (t : Token) :
    ∀ (n : Nat) (i : Nat), allMiss w t.name n i = true →
      runCall env n w (.cGet i t {}) = .error (.notRegistered t.name, w) := by
  intro n
  induction n with
  | zero => intro i hmiss; simp [allMiss] at hmiss
  | succ n ih =>
    intro i hmiss
    rw [allMiss] at hmiss
    cases hl : regLookup (registryAt w i) t.name with
    | some _ => rw [hl] at hmiss; simp at hmiss
    | none =>
      rw [hl] at hmiss
      cases hp : parentAt w i with
      | none =>
        rw [runCall]
        simp [hl, hp]
      | some p =>
        rw [hp] at hmiss
        rw [runCall]
        simp only [Bool.false_eq_true, if_false, hl, hp]
        exact ih p hmiss

/-! ### Claim C8 — ambient-context primitives -/

/-- C8: the ambient-context primitives normalize the no-injector
sentinel on read, not on write: `setCurrentInjector ROOT` clears the
stored pointer, `getCurrentInjector` returns the stored injector if
set and the root otherwise (never nothing), and after
`setCurrentInjector ROOT` the getter answers the root while
`assertRunInInjectionContext` still treats the context as unset. -/
theorem c8_context_primitives (w : World) (i j : Nat) (hi : i ≠ rootId) :
    (setCurrentInjector w rootId).current = none ∧
    getCurrentInjector (setCurrentInjector w rootId) = rootId ∧
    assertRunInInjectionContext (setCurrentInjector w rootId) "dynamicComponent" =
      .error (.outsideContext "dynamicComponent", setCurrentInjector w rootId) ∧
    (setCurrentInjector w i).current = some i ∧
    getCurrentInjector (setCurrentInjector w i) = i ∧
    (w.current = some j → getCurrentInjector w = j) ∧
    (w.current = none → getCurrentInjector w = rootId) := by
  refine ⟨?_, ?_, ?_, ?_, ?_, ?_, ?_⟩
  · simp [setCurrentInjector]
  · simp [setCurrentInjector, getCurrentInjector, rootId]
  · simp [setCurrentInjector, assertRunInInjectionContext]
  · simp [setCurrentInjector, hi]
  · simp [setCurrentInjector, getCurrentInjector, hi]
  · intro h; simp [getCurrentInjector, h]
  · intro h; simp [getCurrentInjector, h]

theorem c8_context_primitives_witness :
    (setCurrentInjector ⟨[], some 5, 0⟩ rootId).current = none ∧
    getCurrentInjector (⟨[], some 5, 0⟩ : World) = 5 :=
  ⟨(c8_context_primitives ⟨[], some 5, 0⟩ 3 5 (by decide)).1,
   (c8_context_primitives ⟨[], some 5, 0⟩ 3 5 (by decide)).2.2.2.2.2.1 rfl⟩

/-! ### Claim C3 — registry keyed by label string, not token identity -/

def c3Env : Env := []

def c3TokenA : Token := ⟨10, "Label"⟩

def c3TokenB : Token := ⟨11, "Label"⟩

/-- The root injector with two Value providers registered for two
DISTINCT tokens that share the label "Label". -/
def c3World : World :=
  let r := (newInjector c3Env ⟨[], none, 0⟩ none []).2
  let r1 := provide c3Env r rootId (.valueP c3TokenA (.str "a"))
  provide c3Env r1 rootId (.valueP c3TokenB (.str "b"))

/-- C3 (code bug): the registry keys by the token's label string, so
registering providers for two distinct tokens with equal labels
conflates them — `get` on the first token returns the second token's
value, because the second registration overwrote the first under the
shared key. -/
theorem c3_label_conflation :
    c3TokenA ≠ c3TokenB ∧
    c3TokenA.name = c3TokenB.name ∧
    valueOf (injectorGet c3Env 5 c3World rootId c3TokenA {}) = some (.str "b") :=
  ⟨by decide, rfl, rfl⟩

/-! ### Claim C5 — Class-provider resolution and the ambient context -/

/-- C5 (amended): resolving a Class provider performs NO push or pop
of the ambient context: it evaluates the class's constructor body in
a world identical except for the fresh-object counter — in
particular with the same ambient context that was current at the
`get` call — and wraps the result as a fresh instance. -/
theorem c5_class_resolution_no_context_push (env : Env) (m : Nat) (w : World)
    (i : Nat) (tk : Token) (c : Nat) :
    runCall env (m + 2) w (.cInitProvider i (.classP tk c)) =
      (match runCall env m { w with nextObj := w.nextObj + 1 }
          (.cEval ((getClass env c).body [])) with
       | .error e => .error e
       | .ok (_, w₂) => .ok (.obj w.nextObj, w₂)) ∧
    ({ w with nextObj := w.nextObj + 1 } : World).current = w.current ∧
    getCurrentInjector { w with nextObj := w.nextObj + 1 } = getCurrentInjector w :=
  ⟨rfl, rfl, rfl⟩

def c5Env : Env := [⟨"Svc", fun _ => .injectE ⟨20, "u"⟩ {}⟩]

/-- Root (injector 0) owns a Class recipe for "T" and a Value recipe
for "u"; injector 1 (child of root) also has a Value recipe for "u";
the ambient context points at injector 1. -/
def c5World : World :=
  let r := (newInjector c5Env ⟨[], none, 0⟩ none []).2
  let r1 := provide c5Env r rootId (.classP ⟨21, "T"⟩ 0)
  let r2 := provide c5Env r1 rootId (.valueP ⟨20, "u"⟩ (.str "fromRoot"))
  let x := (newInjector c5Env r2 (some rootId) [.valueP ⟨20, "u"⟩ (.str "fromX")]).2
  { x with current := some 1 }

/-- C5 counterexample: resolving the Class recipe owned by the root
injector runs the constructor with injector 1 (the ambient context)
still current, NOT with the owning root injector pushed: the
constructor's inject of "u" resolves and caches at injector 1, while
the owner's own "u" recipe stays unresolved — so the claimed
push-owner behavior does not happen. -/
theorem c5_counterexample :
    regLookup (registryAt (worldOf (injectorGet c5Env 10 c5World rootId ⟨21, "T"⟩ {})) 1) "u"
      = some (.init (.str "fromX")) ∧
    regLookup (registryAt (worldOf (injectorGet c5Env 10 c5World rootId ⟨21, "T"⟩ {})) rootId) "u"
      = some (.uninit (.valueP ⟨20, "u"⟩ (.str "fromRoot"))) ∧
    currentOf (injectorGet c5Env 10 c5World rootId ⟨21, "T"⟩ {}) = some 1 :=
  ⟨rfl, rfl, rfl⟩

/-! ### Claim C4 — Existing providers drop the caller's options -/

/-- C4 (amended): resolving an Existing provider found (unresolved)
at injector `i` recursively calls `get` on the aliased token with
DEFAULT options — the caller's `optional`/`self`/`skipSelf`/`host`
flags are NOT forwarded — and caches the outcome under the alias. -/
theorem c4_existing_uses_default_options (env : Env) (n : Nat) (w : World)
    (i : Nat) (al tk target : Token) (o : InjectionOptions)
    (hskip : o.skipSelf = false)
    (hl : regLookup (registryAt w i) al.name = some (.uninit (.existingP tk target))) :
    runCall env (n + 2) w (.cGet i al o) =
      match runCall env n w (.cGet i target {}) with
      | .error e => .error e
      | .ok (v, w₂) => .ok (v, setRegEntry w₂ i al.name (.init v)) := by
  simp only [runCall, hskip, Bool.false_eq_true, if_false, hl]

def c4Env : Env := []

def c4TokT : Token := ⟨30, "t4"⟩

def c4TokAlias : Token := ⟨31, "alias4"⟩

def c4World : World :=
  let r := (newInjector c4Env ⟨[], none, 0⟩ none []).2
  let r1 := provide c4Env r rootId (.valueP c4TokT (.str "v4"))
  provide c4Env r1 rootId (.existingP c4TokAlias c4TokT)

theorem c4_existing_uses_default_options_witness :
    runCall c4Env 7 c4World (.cGet rootId c4TokAlias { optional := true }) =
      match runCall c4Env 5 c4World (.cGet rootId c4TokT {}) with
      | .error e => .error e
      | .ok (v, w₂) => .ok (v, setRegEntry w₂ rootId c4TokAlias.name (.init v)) :=
  c4_existing_uses_default_options c4Env 5 c4World rootId c4TokAlias c4TokAlias c4TokT
    { optional := true } rfl rfl

def c4CexTokAlias : Token := ⟨32, "alias4b"⟩

def c4CexTokMissing : Token := ⟨33, "missing4"⟩

def c4CexWorld : World :=
  let r := (newInjector c4Env ⟨[], none, 0⟩ none []).2
  provide c4Env r rootId (.existingP c4CexTokAlias c4CexTokMissing)

/-- C4 counterexample: with an Existing provider aliasing a token
that is registered nowhere, `get(alias, {optional: true})` throws
`TokenNotRegistered` (the recursive call dropped `optional`), while
`get(aliased, {optional: true})` returns the absent sentinel — so
the two are NOT equivalent under the same options. -/
theorem c4_counterexample :
    injectorGet c4Env 10 c4CexWorld rootId c4CexTokAlias { optional := true } =
      .error (.notRegistered "missing4", c4CexWorld) ∧
    injectorGet c4Env 10 c4CexWorld rootId c4CexTokMissing { optional := true } =
      .ok (.undef, c4CexWorld) :=
  ⟨rfl, rfl⟩

/-! ### Claim C6 — optional collapses failure -/

/-- C6 (amended): if the token has NO registry entry anywhere along
the reachable self-to-parent chain, `get(t, {optional: true})`
returns the absent sentinel and never throws.  (The original claim
extended this to tokens made unresolvable through an Existing alias;
that case throws — see the counterexample.) -/
theorem c6_optional_returns_absent (env : Env) (n : Nat) (w : World)
    (i : Nat) (t : Token) (h : allMiss w t.name n i = true) :
    injectorGet env n w i t { optional := true } = .ok (.undef, w) :=
  runCall_allMiss_optional env w t n i h

def c6Env : Env := []

def c6World : World :=
  let r := (newInjector c6Env ⟨[], none, 0⟩ none []).2
  (newInjector c6Env r (some rootId) []).2

theorem c6_optional_returns_absent_witness :
    injectorGet c6Env 5 c6World 1 ⟨42, "ghost"⟩ { optional := true } =
      .ok (.undef, c6World) :=
  c6_optional_returns_absent c6Env 5 c6World 1 ⟨42, "ghost"⟩ rfl

def c6CexTokAlias : Token := ⟨40, "a6"⟩

def c6CexTokMissing : Token := ⟨41, "m6"⟩

def c6CexWorld : World :=
  let r := (newInjector c6Env ⟨[], none, 0⟩ none []).2
  provide c6Env r rootId (.existingP c6CexTokAlias c6CexTokMissing)

/-- C6 counterexample: the requested token IS unresolvable (its only
recipe aliases a token registered nowhere), yet
`get(t, {optional: true})` throws `TokenNotRegistered` instead of
returning the absent sentinel. -/
theorem c6_counterexample :
    injectorGet c6Env 10 c6CexWorld rootId c6CexTokAlias { optional := true } =
      .error (.notRegistered "m6", c6CexWorld) :=
  rfl

/-! ### Claim C1 — context restoration around scope-entering construction -/

theorem setCurrent_restore (x w : World) (h : w.current ≠ some rootId) :
    (setCurrentInjector x (getCurrentInjector w)).current = w.current := by
  cases hw : w.current with
  | none => simp [getCurrentInjector, hw, setCurrentInjector, rootId]
  | some j =>
    have hj : ¬j = rootId := by
      intro hj
      exact h (by rw [hw, hj])
    simp [getCurrentInjector, hw, setCurrentInjector, hj]

/-- C1 (amended): after a scope-entering construction that COMPLETES
NORMALLY — construction of a Component-wrapped type, or resolution
of a Factory provider — the ambient context equals exactly the value
it had immediately before entry.  (When the body throws, no
restoration happens — see the counterexample.) -/
theorem c1_restoration_on_success (env : Env) (n : Nat) (w : World)
    (provs : List Provider) (c : Nat) (args : List Value) (body : Exp)
    (deps : List Provider) (v v' : Value) (w₁ w₂ : World)
    (hroot : w.current ≠ some rootId) :
    (runCall env n w (.cNew (.comp provs c) args) = .ok (v, w₁) →
      w₁.current = w.current) ∧
    (runCall env n w (.cFactory body deps) = .ok (v', w₂) →
      w₂.current = w.current) := by
  constructor
  · cases n with
    | zero => intro h; simp [runCall] at h
    | succ n =>
      intro hrun
      rw [runCall] at hrun
      split at hrun
      · exact absurd hrun (by simp)
      · simp only [Except.ok.injEq, Prod.mk.injEq] at hrun
        obtain ⟨_, hw⟩ := hrun
        rw [← hw]
        exact setCurrent_restore _ w hroot
  · cases n with
    | zero => intro h; simp [runCall] at h
    | succ n =>
      intro hrun
      rw [runCall] at hrun
      split at hrun
      · exact absurd hrun (by simp)
      · simp only [Except.ok.injEq, Prod.mk.injEq] at hrun
        obtain ⟨_, hw⟩ := hrun
        rw [← hw]
        exact setCurrent_restore _ w hroot

def c1Env : Env := [⟨"W", fun _ => .ret .unit⟩]

def c1World : World :=
  let r := (newInjector c1Env ⟨[], none, 0⟩ none []).2
  let x := (newInjector c1Env r (some rootId) []).2
  { x with current := some 1 }

theorem c1_restoration_on_success_witness :
    (worldOf (runCall c1Env 10 c1World (.cNew (.comp [] 0) []))).current =
      c1World.current ∧
    (worldOf (runCall c1Env 10 c1World (.cFactory (.ret .unit) []))).current =
      c1World.current :=
  ⟨(c1_restoration_on_success c1Env 10 c1World [] 0 [] (.ret .unit) [] (.obj 0) .unit
      (worldOf (runCall c1Env 10 c1World (.cNew (.comp [] 0) [])))
      (worldOf (runCall c1Env 10 c1World (.cFactory (.ret .unit) [])))
      (by decide)).1 rfl,
   (c1_restoration_on_success c1Env 10 c1World [] 0 [] (.ret .unit) [] (.obj 0) .unit
      (worldOf (runCall c1Env 10 c1World (.cNew (.comp [] 0) [])))
      (worldOf (runCall c1Env 10 c1World (.cFactory (.ret .unit) [])))
      (by decide)).2 rfl⟩

def c1CexEnv : Env := []

def c1CexTok : Token := ⟨50, "F1"⟩

/-- Root owns a Factory recipe whose factory throws; the ambient
context points at injector 1 before the `get` call. -/
def c1CexWorld : World :=
  let r := (newInjector c1CexEnv ⟨[], none, 0⟩ none []).2
  let r1 := provide c1CexEnv r rootId (.factoryP c1CexTok .throwE [])
  let x := (newInjector c1CexEnv r1 (some rootId) []).2
  { x with current := some 1 }

/-- C1 counterexample: the factory body throws, the error propagates
to the caller, and the ambient context is left pointing at the
freshly created factory child injector (index 2), NOT restored to
its prior value (injector 1). -/
theorem c1_counterexample :
    c1CexWorld.current = some 1 ∧
    valueOf (injectorGet c1CexEnv 10 c1CexWorld rootId c1CexTok {}) = none ∧
    currentOf (injectorGet c1CexEnv 10 c1CexWorld rootId c1CexTok {}) = some 2 :=
  ⟨rfl, rfl, rfl⟩

/-! ### Claim C2 — singleton per owning injector -/

/-- C2: if injector `a` holds an Unresolved recipe for `t` and a
`get` reaching `a` (directly, `d = a`, or by delegation from a
descendant `d`) returns `v`, then `a`'s own registry now stores `v`
as Resolved, and a second `get` from the same injector that again
reaches `a` returns the identical cached `v` without changing the
world. -/
theorem c2_singleton_per_owner (env : Env) (w : World) (d a : Nat) (t : Token)
    (p : Provider) (f f₂ : Nat) (v : Value) (w₁ : World)
    (hwalk : reachesOwner w t.name f d a = true)
    (hown : regLookup (registryAt w a) t.name = some (.uninit p))
    (hfst : injectorGet env f w d t {} = .ok (v, w₁))
    (hwalk₂ : reachesOwner w₁ t.name f₂ d a = true) :
    regLookup (registryAt w₁ a) t.name = some (.init v) ∧
    injectorGet env f₂ w₁ d t {} = .ok (v, w₁) := by
  obtain ⟨m, w₂, hinit, hw₁⟩ :=
    runCall_resolveAtOwner env w t a p f d v w₁ hwalk hown hfst
  have ha : a < w.injectors.length := lt_of_regLookup_some w a _ _ hown
  have hmono := runCall_length_mono env m w (.cInitProvider a p)
  rw [hinit] at hmono
  simp only [worldOf] at hmono
  have ha₂ : a < w₂.injectors.length := lt_of_lt_of_le ha hmono
  have hcache : regLookup (registryAt w₁ a) t.name = some (.init v) := by
    rw [hw₁, registryAt_setRegEntry_self _ _ _ _ ha₂, regLookup_regSet_self]
  exact ⟨hcache, runCall_cacheHit env w₁ t a v f₂ d hwalk₂ hcache⟩

def c2Env : Env := [⟨"Cart", fun _ => .ret .unit⟩]

def c2Tok : Token := ⟨60, "Cart"⟩

/-- Root owns a Class recipe for "Cart"; injector 1 is a child of
root with no own recipe for it. -/
def c2World : World :=
  let r := (newInjector c2Env ⟨[], none, 0⟩ none []).2
  let r1 := provide c2Env r rootId (.classP c2Tok 0)
  (newInjector c2Env r1 (some rootId) []).2

theorem c2_singleton_per_owner_witness :
    regLookup (registryAt (worldOf (injectorGet c2Env 10 c2World 1 c2Tok {})) rootId)
        c2Tok.name = some (.init (.obj 0)) ∧
    injectorGet c2Env 10 (worldOf (injectorGet c2Env 10 c2World 1 c2Tok {})) 1 c2Tok {}
      = .ok (.obj 0, worldOf (injectorGet c2Env 10 c2World 1 c2Tok {})) :=
  c2_singleton_per_owner c2Env c2World 1 rootId c2Tok (.classP c2Tok 0) 10 10 (.obj 0)
    (worldOf (injectorGet c2Env 10 c2World 1 c2Tok {})) rfl rfl rfl rfl

/-! ### Claim C10 — delegation caches only at the owner -/

/-- C10 (amended): when `d`'s `get` delegates to ancestor `a` owning
the unresolved recipe, the `get` machinery itself performs exactly
one registry write — caching the Resolved value at `a`; every other
registry is exactly as the recipe's own initialization left it.  For
a Value recipe (whose initialization has no effects) the registries
of `d` and of every other injector are unchanged from before the
call.  A recipe then registered directly on `d` for `t` is found by
a subsequent `d.get(t)` rather than shadowed by any local cache. -/
theorem c10_delegation_caches_only_at_owner (env : Env) (w : World) (d a : Nat)
    (t : Token) (p : Provider) (f : Nat) (v : Value) (w₁ : World)
    (hd : d < w.injectors.length)
    (hwalk : reachesOwner w t.name f d a = true)
    (hown : regLookup (registryAt w a) t.name = some (.uninit p))
    (hrun : injectorGet env f w d t {} = .ok (v, w₁)) :
    (∃ (m : Nat) (w₂ : World),
        runCall env m w (.cInitProvider a p) = .ok (v, w₂) ∧
        w₁ = setRegEntry w₂ a t.name (.init v) ∧
        ∀ j, j ≠ a → registryAt w₁ j = registryAt w₂ j) ∧
    (∀ (tk : Token) (vv : Value), p = .valueP tk vv →
        v = vv ∧ w₁ = setRegEntry w a t.name (.init vv) ∧
        ∀ j, j ≠ a → registryAt w₁ j = registryAt w j) ∧
    (∀ (u : Value) (m : Nat),
        runCall env (m + 2) (provide env w₁ d (.valueP t u)) (.cGet d t {}) =
          .ok (u, setRegEntry (provide env w₁ d (.valueP t u)) d t.name (.init u))) := by
  obtain ⟨m, w₂, hinit, hw₁⟩ :=
    runCall_resolveAtOwner env w t a p f d v w₁ hwalk hown hrun
  have hd₁ : d < w₁.injectors.length := by
    have hrun2 : runCall env f w (.cGet d t {}) = .ok (v, w₁) := hrun
    have hmono := runCall_length_mono env f w (.cGet d t {})
    rw [hrun2] at hmono
    simp only [worldOf] at hmono
    exact lt_of_lt_of_le hd hmono
  have hshadow : ∀ u : Value,
      regLookup (registryAt (provide env w₁ d (.valueP t u)) d) t.name
        = some (.uninit (.valueP t u)) := by
    intro u
    rw [registryAt_provide_self env w₁ d _ hd₁]
    simp [provideReg, providerToken, normalizeProvider, regLookup_regSet_self]
  refine ⟨⟨m, w₂, hinit, hw₁, ?_⟩, ?_, ?_⟩
  · intro j hj
    rw [hw₁]
    exact registryAt_setRegEntry_ne w₂ a j _ _ (Ne.symm hj)
  · rintro tk vv rfl
    cases m with
    | zero => simp [runCall] at hinit
    | succ m =>
      rw [runCall] at hinit
      simp only [Except.ok.injEq, Prod.mk.injEq] at hinit
      obtain ⟨hv, hw₂⟩ := hinit
      subst hv
      rw [← hw₂] at hw₁
      refine ⟨rfl, hw₁, ?_⟩
      intro j hj
      rw [hw₁]
      exact registryAt_setRegEntry_ne w a j _ _ (Ne.symm hj)
  · intro u m
    rw [runCall]
    simp only [hshadow u, Bool.false_eq_true, if_false]
    rw [runCall]

def c10Env : Env := [⟨"C10", fun _ => .injectE ⟨71, "u10"⟩ {}⟩]

def c10TokT : Token := ⟨70, "t10"⟩

def c10TokU : Token := ⟨71, "u10"⟩

/-- Chain 2 → 1 → 0: root (0) owns a Class recipe for "t10" whose
constructor injects "u10"; injector 1 (strictly between) owns a
Value recipe for "u10"; the ambient context points at injector 2. -/
def c10World : World :=
  let r := (newInjector c10Env ⟨[], none, 0⟩ none []).2
  let r1 := provide c10Env r rootId (.classP c10TokT 0)
  let j := (newInjector c10Env r1 (some rootId) [.valueP c10TokU (.str "x")]).2
  let dd := (newInjector c10Env j (some 1) []).2
  { dd with current := some 2 }

/-- C10 counterexample: resolving "t10" from injector 2 delegates to
the owner (root), but the recipe's construction body injects "u10",
which resolves and caches at injector 1 — an injector strictly
between the requester and the owner — so injector 1's registry is
NOT left unchanged by the call. -/
theorem c10_counterexample :
    regLookup (registryAt c10World 1) "u10"
      = some (.uninit (.valueP c10TokU (.str "x"))) ∧
    valueOf (injectorGet c10Env 20 c10World 2 c10TokT {}) = some (.obj 0) ∧
    regLookup (registryAt (worldOf (injectorGet c10Env 20 c10World 2 c10TokT {})) 1) "u10"
      = some (.init (.str "x")) :=
  ⟨rfl, rfl, rfl⟩

/-! ### Claim C7 — dynamic instantiation passes the argument array unspread -/

def c7Env : Env :=
  [⟨"Two", fun args => if args.length = 2 then .ret .unit else .throwE⟩,
   ⟨"One", fun args => if args.length = 1 then .ret .unit else .throwE⟩]

def c7World : World := (newInjector c7Env ⟨[], none, 0⟩ none []).2

/-- C7 (code bug): `dynamicComponent` invokes `new component(params)`
without spreading, so the constructor receives ONE argument — the
array itself — not one argument per element: a constructor that
demands two arguments throws on `args = [x, y]`, while a constructor
that accepts exactly one argument (the array) succeeds. -/
theorem c7_args_not_spread :
    valueOf (dynamicComponent c7Env 10 c7World (.plain 0)
      [.str "x", .str "y"] (some rootId)) = none ∧
    valueOf (dynamicComponent c7Env 10 c7World (.plain 1)
      [.str "x", .str "y"] (some rootId)) = some (.obj 0) :=
  ⟨rfl, rfl⟩

def c9AncEnv : Env := [⟨"W9", fun _ => .injectE componentToken {}⟩]

def c9AncWorld : World :=
  let r := (newInjector c9AncEnv ⟨[], none, 0⟩ none []).2
  provide c9AncEnv r rootId (.valueP componentToken (.str "anc"))

/-! ### Claim C9 — no self-registration while the constructor runs -/

/-- The registry a freshly constructed injector starts with: the
seeded providers, then the `Injector` self-registration. -/
def seededRegistry (env : Env) (provs : List Provider) (id : Nat) :
    List (String × ProviderData) :=
  provideReg env (provs.foldl (fun r p => provideReg env r p) [])
    (.valueP injectorToken (.inj id))

/-- The world in which a `Component`-wrapped constructor's original
body runs: child injector appended (index = old heap size), made
current, fresh-object counter advanced for the instance. -/
def c9BodyWorld (env : Env) (w : World) (provs : List Provider) : World :=
  let parent := getCurrentInjector w
  let made := newInjector env w (some parent) provs
  let w₂ := setCurrentInjector made.2 made.1
  { w₂ with nextObj := w₂.nextObj + 1 }

theorem getCurrent_setCurrent (w : World) (i : Nat) :
    getCurrentInjector (setCurrentInjector w i) = i := by
  by_cases h : i = rootId
  · subst h; simp [setCurrentInjector, getCurrentInjector]
  · simp [setCurrentInjector, getCurrentInjector, h]

theorem current_c9BodyWorld (env : Env) (w : World) (provs : List Provider) :
    getCurrentInjector (c9BodyWorld env w provs) = w.injectors.length := by
  show getCurrentInjector (setCurrentInjector
    (newInjector env w (some (getCurrentInjector w)) provs).2
    (newInjector env w (some (getCurrentInjector w)) provs).1) = _
  rw [getCurrent_setCurrent]
  rfl

theorem registryAt_c9BodyWorld_child (env : Env) (w : World)
    (provs : List Provider) :
    registryAt (c9BodyWorld env w provs) w.injectors.length =
      seededRegistry env provs w.injectors.length := by
  show ((setCurrentInjector (newInjector env w (some (getCurrentInjector w)) provs).2
      (newInjector env w (some (getCurrentInjector w)) provs).1).injectors.getD
        w.injectors.length emptyInj).registry = _
  rw [injectors_setCurrentInjector]
  show ((w.injectors ++ [_]).getD w.injectors.length emptyInj).registry = _
  rw [getD_append_len]
  rfl

theorem parentAt_c9BodyWorld_child (env : Env) (w : World)
    (provs : List Provider) :
    parentAt (c9BodyWorld env w provs) w.injectors.length =
      some (getCurrentInjector w) := by
  show ((setCurrentInjector (newInjector env w (some (getCurrentInjector w)) provs).2
      (newInjector env w (some (getCurrentInjector w)) provs).1).injectors.getD
        w.injectors.length emptyInj).parent = _
  rw [injectors_setCurrentInjector]
  show ((w.injectors ++ [_]).getD w.injectors.length emptyInj).parent = _
  rw [getD_append_len]

/-- Errors from the original constructor body propagate out of a
plain `new C(args)` unchanged. -/
theorem plain_err_prop (env : Env) (n : Nat) (w : World) (c : Nat)
    (args : List Value) (e : Err × World)
    (h : runCall env n { w with nextObj := w.nextObj + 1 }
        (.cEval ((getClass env c).body args)) = .error e) :
    runCall env (n + 1) w (.cNew (.plain c) args) = .error e := by
  rw [runCall]
  split
  · next e' heq =>
      have h2 : (Except.error e' : Except (Err × World) (Value × World)) = .error e := by
        rw [← heq]; exact h
      exact h2
  · next inst w₃ heq =>
      have h2 : (Except.error e : Except (Err × World) (Value × World)) =
          .ok (inst, w₃) := h.symm.trans heq
      simp at h2

/-- Errors from the inner plain construction propagate out of a
`Component`-wrapped construction unchanged (and unrestored). -/
theorem comp_err_prop (env : Env) (n : Nat) (w : World) (provs : List Provider)
    (c : Nat) (args : List Value) (e : Err × World)
    (h : runCall env n
        (setCurrentInjector (newInjector env w (some (getCurrentInjector w)) provs).2
          (newInjector env w (some (getCurrentInjector w)) provs).1)
        (.cNew (.plain c) args) = .error e) :
    runCall env (n + 1) w (.cNew (.comp provs c) args) = .error e := by
  rw [runCall]
  split
  · next e' heq =>
      have h2 : (Except.error e' : Except (Err × World) (Value × World)) = .error e := by
        rw [← heq]; exact h
      exact h2
  · next inst w₃ heq =>
      have h2 : (Except.error e : Except (Err × World) (Value × World)) =
          .ok (inst, w₃) := h.symm.trans heq
      simp at h2

/-- C9: while the original constructor body of a Component-wrapped
class runs, the instance under construction is NOT yet registered:
(general part) if the body injects a token that neither the scope's
seeded recipes nor any ancestor can resolve — in particular the
class's own token or the COMPONENT marker, both registered only
after the body completes — the whole construction fails with
`TokenNotRegistered`; (ancestor part, concrete) when an ancestor CAN
resolve the COMPONENT marker, the body's inject resolves and caches
at that ancestor, and the construction returns a fresh instance
distinct from the ancestor's value. -/
theorem c9_no_registration_during_body (env : Env) (m : Nat) (w : World)
    (provs : List Provider) (c : Nat) (args : List Value) (tk : Token)
    (hbody : (getClass env c).body = fun _ => .injectE tk {})
    (hchild : regLookup (seededRegistry env provs w.injectors.length) tk.name = none)
    (hmiss : allMiss (c9BodyWorld env w provs) tk.name m (getCurrentInjector w) = true) :
    (runCall env (m + 4) w (.cNew (.comp provs c) args) =
      .error (.notRegistered tk.name, c9BodyWorld env w provs)) ∧
    valueOf (runCall c9AncEnv 10 c9AncWorld (.cNew (.comp [] 0) [])) = some (.obj 0) ∧
    regLookup (registryAt (worldOf (runCall c9AncEnv 10 c9AncWorld
        (.cNew (.comp [] 0) []))) rootId) "Component" = some (.init (.str "anc")) ∧
    Value.obj 0 ≠ Value.str "anc" := by
  refine ⟨?_, rfl, rfl, fun h => Value.noConfusion h⟩
  have hchildId := current_c9BodyWorld env w provs
  have hget : runCall env (m + 1) (c9BodyWorld env w provs)
      (.cGet w.injectors.length tk {}) =
        .error (.notRegistered tk.name, c9BodyWorld env w provs) := by
    rw [runCall]
    have hl : regLookup (registryAt (c9BodyWorld env w provs) w.injectors.length)
        tk.name = none := by
      rw [registryAt_c9BodyWorld_child]; exact hchild
    have hp := parentAt_c9BodyWorld_child env w provs
    simp only [Bool.false_eq_true, if_false, hl, hp]
    exact runCall_allMiss_throws env _ tk m _ hmiss
  have hev : runCall env (m + 2) (c9BodyWorld env w provs)
      (.cEval ((getClass env c).body args)) =
        .error (.notRegistered tk.name, c9BodyWorld env w provs) := by
    rw [hbody]
    show runCall env (m + 1) (c9BodyWorld env w provs)
        (.cGet (getCurrentInjector (c9BodyWorld env w provs)) tk {}) = _
    rw [hchildId]
    exact hget
  apply comp_err_prop
  apply plain_err_prop
  show runCall env (m + 2) (c9BodyWorld env w provs)
      (.cEval ((getClass env c).body args)) = _
  exact hev

def c9Env : Env := [⟨"Widget", fun _ => .injectE ⟨2, "Widget"⟩ {}⟩]

def c9World : World := (newInjector c9Env ⟨[], none, 0⟩ none []).2

theorem c9_no_registration_during_body_witness :
    runCall c9Env 9 c9World (.cNew (.comp [] 0) []) =
      .error (.notRegistered "Widget", c9BodyWorld c9Env c9World []) :=
  (c9_no_registration_during_body c9Env 5 c9World [] 0 [] ⟨2, "Widget"⟩
    rfl rfl rfl).1

def c10WitEnv : Env := []

def c10WitTok : Token := ⟨72, "tw"⟩

/-- Root owns a Value recipe for "tw"; injector 1 is a child of root. -/
def c10WitWorld : World :=
  let r := (newInjector c10WitEnv ⟨[], none, 0⟩ none []).2
  let r1 := provide c10WitEnv r rootId (.valueP c10WitTok (.str "vw"))
  (newInjector c10WitEnv r1 (some rootId) []).2

theorem c10_delegation_caches_only_at_owner_witness :
    runCall c10WitEnv 7
      (provide c10WitEnv
        (worldOf (injectorGet c10WitEnv 10 c10WitWorld 1 c10WitTok {})) 1
        (.valueP c10WitTok (.str "u")))
      (.cGet 1 c10WitTok {}) =
      .ok (.str "u",
        setRegEntry
          (provide c10WitEnv
            (worldOf (injectorGet c10WitEnv 10 c10WitWorld 1 c10WitTok {})) 1
            (.valueP c10WitTok (.str "u")))
          1 c10WitTok.name (.init (.str "u"))) :=
  (c10_delegation_caches_only_at_owner c10WitEnv c10WitWorld 1 rootId c10WitTok
    (.valueP c10WitTok (.str "vw")) 10 (.str "vw")
    (worldOf (injectorGet c10WitEnv 10 c10WitWorld 1 c10WitTok {}))
    (by decide) rfl rfl rfl).2.2 (.str "u") 5

end DI
